import Mathlib

/-!
Verification development for the HyperDbg edit-memory command builder
(`hprdbgctrl/e.cpp`, function `CommandEditMemory`) and the privileged
user-access introspection routines
(`hprdbghv/code/debugger/user-level/UserAccess.c`).

The C code is shallowly embedded: machine integers become `Nat` with explicit
`% 2 ^ w` where wrap-around matters, fallible paths return `Except`/`Option`,
and the external environment (device handle, allocator, OS queries) is passed
in explicitly.  Resource usage of the kernel-side routines is tracked by
explicit counters threaded through the control flow.
-/

set_option maxRecDepth 10000

namespace HyperDbg

/-! ## Tokens and hex parsing -/

/-- A command token (`std::string` in the source), as a list of characters. -/
abbrev Token := List Char

/-- The backtick digit-group separator character. -/
def backtickChar : Char := Char.ofNat 96

/-- Hexadecimal digit test. -/
def isHexDigitChar (c : Char) : Bool :=
  (('0' ≤ c && c ≤ '9') || ('a' ≤ c && c ≤ 'f') || ('A' ≤ c && c ≤ 'F'))

/-- Numeric value of a hexadecimal digit. -/
def hexDigitVal (c : Char) : Nat :=
  if '0' ≤ c && c ≤ '9' then c.toNat - '0'.toNat
  else if 'a' ≤ c && c ≤ 'f' then c.toNat - 'a'.toNat + 10
  else if 'A' ≤ c && c ≤ 'F' then c.toNat - 'A'.toNat + 10
  else 0

/-- Accumulate hexadecimal digits into a number (most significant first). -/
def hexDigitsToNat (s : Token) : Nat :=
  s.foldl (fun acc c => 16 * acc + hexDigitVal c) 0

/-- Strip one leading hex marker, as `e.cpp` lines 131-136 do: first the
two-character markers `0x`, `0X`, `\x`, `\X`, then the one-character markers
`x`, `X`. -/
def stripHexMarker (s : Token) : Token :=
  match s with
  | c1 :: c2 :: rest =>
    if (c1 = '0' ∨ c1 = '\\') ∧ (c2 = 'x' ∨ c2 = 'X') then rest
    else if c1 = 'x' ∨ c1 = 'X' then c2 :: rest
    else c1 :: c2 :: rest
  | [c1] => if c1 = 'x' ∨ c1 = 'X' then [] else [c1]
  | [] => []

/-- Remove every backtick separator, as `e.cpp` line 137 does. -/
def removeBackticks (s : Token) : Token :=
  s.filter (fun c => c ≠ backtickChar)

/-- Modelled from the spec: `ConvertStringToUInt64` is declared outside this
repository (only called from `e.cpp`).  Per the spec, tokens are hex-parsed
after stripping any of the markers `0x`, `0X`, `\x`, `\X`, `x`, `X` and
removing embedded backtick separators; the result is a 64-bit integer, so a
remaining string that is empty, contains a non-hex character, or denotes a
number that does not fit in 64 bits fails the parse. -/
def ConvertStringToUInt64 (s : Token) : Option Nat :=
  if !(removeBackticks (stripHexMarker s)).isEmpty &&
      (removeBackticks (stripHexMarker s)).all isHexDigitChar &&
      decide (hexDigitsToNat (removeBackticks (stripHexMarker s)) < 2 ^ 64) then
    some (hexDigitsToNat (removeBackticks (stripHexMarker s)))
  else
    none

/-- Modelled from the spec: `ConvertStringToUInt32` is declared outside this
repository (only called from `e.cpp`).  Same stripping as the 64-bit variant;
the token must parse as a hex 32-bit integer or the parse fails. -/
def ConvertStringToUInt32 (s : Token) : Option Nat :=
  if !(removeBackticks (stripHexMarker s)).isEmpty &&
      (removeBackticks (stripHexMarker s)).all isHexDigitChar &&
      decide (hexDigitsToNat (removeBackticks (stripHexMarker s)) < 2 ^ 32) then
    some (hexDigitsToNat (removeBackticks (stripHexMarker s)))
  else
    none

/-- The six hex decoration markers recognized by the parsers. -/
def hexMarkers : List Token :=
  [['0', 'x'], ['0', 'X'], ['\\', 'x'], ['\\', 'X'], ['x'], ['X']]

/-! ## The edit-memory request structure (`DEBUGGER_EDIT_MEMORY`) -/

/-- Target memory space (`EDIT_VIRTUAL_MEMORY` / `EDIT_PHYSICAL_MEMORY`). -/
inductive DEBUGGER_EDIT_MEMORY_TYPE where
  | EDIT_VIRTUAL_MEMORY
  | EDIT_PHYSICAL_MEMORY
  deriving DecidableEq, Repr

/-- Element width (`EDIT_BYTE` / `EDIT_DWORD` / `EDIT_QWORD`). -/
inductive DEBUGGER_EDIT_MEMORY_BYTE_SIZE where
  | EDIT_BYTE
  | EDIT_DWORD
  | EDIT_QWORD
  deriving DecidableEq, Repr

/-- The request header filled by `CommandEditMemory`.  The struct declaration
itself lives outside this repository; its fields are those assigned in
`e.cpp` (MemoryType, ByteSize, Address, ProcessId, CountOf64Chunks,
FinalStructureSize). -/
structure DEBUGGER_EDIT_MEMORY where
  MemoryType : DEBUGGER_EDIT_MEMORY_TYPE
  ByteSize : DEBUGGER_EDIT_MEMORY_BYTE_SIZE
  Address : Nat
  ProcessId : Nat
  CountOf64Chunks : Nat
  FinalStructureSize : Nat
  deriving DecidableEq, Repr

/-- Modelled from the spec: the value of `SIZEOF_DEBUGGER_EDIT_MEMORY` (the
fixed wire-header size) comes from a header outside this repository.  The spec
fixes only that the header is a fixed-size record carrying target space,
element width, address, process id, value count and total size; we model it as
six fields of 4, 4, 8, 4, 4 and 4 bytes, so 28 bytes in total.  No claim below
depends on the particular constant. -/
def SIZEOF_DEBUGGER_EDIT_MEMORY : Nat := 28

/-! ## The token-scan state of `CommandEditMemory` -/

/-- The local variables of `CommandEditMemory` that the token loop mutates.
`SetProcId` is declared and tested in the source but never assigned `TRUE`;
the embedding reproduces that faithfully. -/
structure EMState where
  SetAddress : Bool
  SetValue : Bool
  SetProcId : Bool
  NextIsProcId : Bool
  MemoryType : DEBUGGER_EDIT_MEMORY_TYPE
  ByteSize : DEBUGGER_EDIT_MEMORY_BYTE_SIZE
  Address : Nat
  ProcId : Nat
  CountOfValues : Nat
  ValuesToEdit : List Nat
  deriving DecidableEq, Repr

/-- Initial loop state.  `ProcId` starts as the caller's own process id
(`GetCurrentProcessId()`).  `MemoryType`/`ByteSize` mirror the zero
initialization `= {0}`; they are always overwritten by the first iteration
before being read.  `Address` is uninitialized in the source and only read
after `SetAddress` is checked; we give it `0`. -/
def initState (currentPid : Nat) : EMState :=
  { SetAddress := false
    SetValue := false
    SetProcId := false
    NextIsProcId := false
    MemoryType := .EDIT_VIRTUAL_MEMORY
    ByteSize := .EDIT_BYTE
    Address := 0
    ProcId := currentPid
    CountOfValues := 0
    ValuesToEdit := [] }

/-- The distinct diagnostics `CommandEditMemory` can print before returning,
plus the transport-stage failures. -/
inductive EMError where
  | incorrectUse
  | unknownKeyword
  | badPidHex
  | badAddressHex
  | byteSizeExceeded
  | dwordSizeExceeded
  | qwordSizeExceeded
  | badValueHex
  | missingAddress
  | missingValue
  | missingPid
  | noDeviceHandle
  | allocationFailed
  | ioctlFailed
  deriving DecidableEq, Repr

/-- The keyword branch (`e.cpp` lines 55-85): a token equal to the first token
selects one of the six `MemoryType` × `ByteSize` variants or fails. -/
def selectKeyword (sec : Token) (st : EMState) : Except EMError EMState :=
  if sec = ['!', 'e', 'b'] then
    .ok { st with MemoryType := .EDIT_PHYSICAL_MEMORY, ByteSize := .EDIT_BYTE }
  else if sec = ['!', 'e', 'd'] then
    .ok { st with MemoryType := .EDIT_PHYSICAL_MEMORY, ByteSize := .EDIT_DWORD }
  else if sec = ['!', 'e', 'q'] then
    .ok { st with MemoryType := .EDIT_PHYSICAL_MEMORY, ByteSize := .EDIT_QWORD }
  else if sec = ['e', 'b'] then
    .ok { st with MemoryType := .EDIT_VIRTUAL_MEMORY, ByteSize := .EDIT_BYTE }
  else if sec = ['e', 'd'] then
    .ok { st with MemoryType := .EDIT_VIRTUAL_MEMORY, ByteSize := .EDIT_DWORD }
  else if sec = ['e', 'q'] then
    .ok { st with MemoryType := .EDIT_VIRTUAL_MEMORY, ByteSize := .EDIT_QWORD }
  else
    .error .unknownKeyword

/-- The forbidden stripped-length threshold per element width
(`e.cpp` lines 142-155): 3 for byte, 9 for dword, 17 for qword. -/
def widthThreshold : DEBUGGER_EDIT_MEMORY_BYTE_SIZE → Nat
  | .EDIT_BYTE => 3
  | .EDIT_DWORD => 9
  | .EDIT_QWORD => 17

/-- The diagnostic printed per element width when the threshold is hit. -/
def widthError : DEBUGGER_EDIT_MEMORY_BYTE_SIZE → EMError
  | .EDIT_BYTE => .byteSizeExceeded
  | .EDIT_DWORD => .dwordSizeExceeded
  | .EDIT_QWORD => .qwordSizeExceeded

/-- One iteration of the token loop of `CommandEditMemory`
(`e.cpp` lines 53-189). -/
def processToken (first : Token) (st : EMState) (sec : Token) : Except EMError EMState :=
  if sec = first then
    selectKeyword sec st
  else if st.NextIsProcId then
    match ConvertStringToUInt32 sec with
    | none => .error .badPidHex
    | some v => .ok { st with NextIsProcId := false, ProcId := v }
  else if st.SetProcId = false ∧ sec = ['p', 'i', 'd'] then
    .ok { st with NextIsProcId := true }
  else if st.SetAddress = false then
    match ConvertStringToUInt64 sec with
    | none => .error .badAddressHex
    | some a => .ok { st with SetAddress := true, Address := a }
  else
    if st.ByteSize = .EDIT_BYTE ∧ 3 ≤ (removeBackticks (stripHexMarker sec)).length then
      .error .byteSizeExceeded
    else if st.ByteSize = .EDIT_DWORD ∧ 9 ≤ (removeBackticks (stripHexMarker sec)).length then
      .error .dwordSizeExceeded
    else if st.ByteSize = .EDIT_QWORD ∧ 17 ≤ (removeBackticks (stripHexMarker sec)).length then
      .error .qwordSizeExceeded
    else
      match ConvertStringToUInt64 (removeBackticks (stripHexMarker sec)) with
      | none => .error .badValueHex
      | some v =>
        .ok { st with
              ValuesToEdit := st.ValuesToEdit ++ [v]
              CountOfValues := st.CountOfValues + 1
              SetValue := true }

/-- The whole token loop: the first diagnostic aborts the command. -/
def processTokens (first : Token) (st : EMState) : List Token → Except EMError EMState
  | [] => .ok st
  | sec :: rest =>
    match processToken first st sec with
    | .error e => .error e
    | .ok st' => processTokens first st' rest

/-- The token scan, structure fill and post-scan validation of
`CommandEditMemory` (`e.cpp` lines 47-221 and the `FinalSize` computation of
line 226): produces the finalized request header and the value list, or the
first diagnostic. -/
def CommandEditMemoryParse (SplittedCommand : List Token) (currentPid : Nat) :
    Except EMError (DEBUGGER_EDIT_MEMORY × List Nat) :=
  if SplittedCommand.length ≤ 2 then .error .incorrectUse
  else
    match SplittedCommand with
    | [] => .error .incorrectUse
    | first :: _ =>
      match processTokens first (initState currentPid) SplittedCommand with
      | .error e => .error e
      | .ok st =>
        if st.SetAddress = false then .error .missingAddress
        else if st.SetValue = false then .error .missingValue
        else if st.NextIsProcId then .error .missingPid
        else
          .ok ({ MemoryType := st.MemoryType
                 ByteSize := st.ByteSize
                 Address := st.Address
                 ProcessId := st.ProcId
                 CountOf64Chunks := st.CountOfValues
                 FinalStructureSize :=
                   st.CountOfValues * 8 + SIZEOF_DEBUGGER_EDIT_MEMORY },
               st.ValuesToEdit)

/-! ## Serialization of the final buffer -/

/-- Little-endian byte serialization of one 4-byte field. -/
def le4Bytes (v : Nat) : List Nat :=
  [v % 256, v / 2 ^ 8 % 256, v / 2 ^ 16 % 256, v / 2 ^ 24 % 256]

/-- Little-endian byte serialization of one 8-byte wire slot (`UINT64`). -/
def le8Bytes (v : Nat) : List Nat :=
  [v % 256, v / 2 ^ 8 % 256, v / 2 ^ 16 % 256, v / 2 ^ 24 % 256,
   v / 2 ^ 32 % 256, v / 2 ^ 40 % 256, v / 2 ^ 48 % 256, v / 2 ^ 56 % 256]

/-- Modelled from the spec: numeric code of the target space (the enum values
live in a header outside this repository). -/
def memoryTypeCode : DEBUGGER_EDIT_MEMORY_TYPE → Nat
  | .EDIT_VIRTUAL_MEMORY => 0
  | .EDIT_PHYSICAL_MEMORY => 1

/-- Element width codes: Byte = 1, Dword = 4, Qword = 8 per the spec's data
model. -/
def byteSizeCode : DEBUGGER_EDIT_MEMORY_BYTE_SIZE → Nat
  | .EDIT_BYTE => 1
  | .EDIT_DWORD => 4
  | .EDIT_QWORD => 8

/-- Modelled from the spec: the byte image of the fixed wire header (struct
layout outside this repository); six fields of 4, 4, 8, 4, 4, 4 bytes. -/
def headerBytes (r : DEBUGGER_EDIT_MEMORY) : List Nat :=
  le4Bytes (memoryTypeCode r.MemoryType) ++ le4Bytes (byteSizeCode r.ByteSize) ++
    le8Bytes r.Address ++ le4Bytes r.ProcessId ++ le4Bytes r.CountOf64Chunks ++
    le4Bytes r.FinalStructureSize

/-- The `std::copy` of `e.cpp` line 256: each value occupies one full 8-byte
slot, in encounter order. -/
def copyValues : List Nat → List Nat
  | [] => []
  | v :: vs => le8Bytes v ++ copyValues vs

/-- The final buffer of `e.cpp` lines 236-257: the header copied at offset 0,
the value slots immediately after it. -/
def buildFinalBuffer (r : DEBUGGER_EDIT_MEMORY) (values : List Nat) : List Nat :=
  headerBytes r ++ copyValues values

/-! ## The transport stage -/

/-- External environment of the command: whether `g_DeviceHandle` is non-null,
whether `malloc` succeeds, and whether `DeviceIoControl` succeeds. -/
structure ClientEnv where
  deviceHandle : Bool
  mallocOk : Bool
  ioctlOk : Bool

instance exceptDecEq {ε α : Type} [DecidableEq ε] [DecidableEq α] :
    DecidableEq (Except ε α) := fun a b =>
  match a, b with
  | .error e, .error e' =>
    if h : e = e' then .isTrue (h ▸ rfl) else .isFalse (fun hc => h (Except.error.inj hc))
  | .error _, .ok _ => .isFalse (fun hc => Except.noConfusion hc)
  | .ok _, .error _ => .isFalse (fun hc => Except.noConfusion hc)
  | .ok v, .ok v' =>
    if h : v = v' then .isTrue (h ▸ rfl) else .isFalse (fun hc => h (Except.ok.inj hc))

/-- Observable outcome of one `CommandEditMemory` call. -/
structure RunOutcome where
  result : Except EMError Unit
  allocAttempted : Bool
  ioctlAttempted : Bool
  sentBuffer : Option (List Nat)
  deriving DecidableEq, Repr

/-- The whole of `CommandEditMemory` (`e.cpp` lines 31-273): parse and
validate, check the device handle, allocate and fill the final buffer, then
hand it once to `DeviceIoControl`. -/
def CommandEditMemoryRun (SplittedCommand : List Token) (currentPid : Nat)
    (env : ClientEnv) : RunOutcome :=
  match CommandEditMemoryParse SplittedCommand currentPid with
  | .error e =>
    { result := .error e, allocAttempted := false, ioctlAttempted := false,
      sentBuffer := none }
  | .ok (req, values) =>
    if env.deviceHandle = false then
      { result := .error .noDeviceHandle, allocAttempted := false,
        ioctlAttempted := false, sentBuffer := none }
    else if env.mallocOk = false then
      { result := .error .allocationFailed, allocAttempted := true,
        ioctlAttempted := false, sentBuffer := none }
    else if env.ioctlOk then
      { result := .ok (), allocAttempted := true, ioctlAttempted := true,
        sentBuffer := some (buildFinalBuffer req values) }
    else
      { result := .error .ioctlFailed, allocAttempted := true,
        ioctlAttempted := true, sentBuffer := some (buildFinalBuffer req values) }

/-! ## Kernel-side introspection (`UserAccess.c`)

The OS facilities (`PsLookupProcessByProcessId`, `ObOpenObjectByPointer`,
`g_ZwQueryInformationProcess`, the pool allocator) are external collaborators;
their outcomes are supplied as an explicit environment.  Resource acquisition
and release events are threaded as explicit counters so that each return
site's outstanding resources are derived from the acquisitions performed on
the path to it. -/

/-- Outstanding kernel resources at a return site: `EPROCESS` references taken
by `PsLookupProcessByProcessId` and not yet dropped by `ObDereferenceObject`,
handles opened by `ObOpenObjectByPointer` and not yet closed, and pool
allocations not yet freed by `ExFreePoolWithTag`. -/
structure KernelResources where
  eprocessRefs : Nat
  openHandles : Nat
  scratchAllocs : Nat
  deriving DecidableEq, Repr

/-- No resources held. -/
def noResources : KernelResources := ⟨0, 0, 0⟩

/-- `PsLookupProcessByProcessId` succeeded: one reference acquired. -/
def acquireRef (r : KernelResources) : KernelResources :=
  { r with eprocessRefs := r.eprocessRefs + 1 }

/-- `ObDereferenceObject`: one reference dropped. -/
def releaseRef (r : KernelResources) : KernelResources :=
  { r with eprocessRefs := r.eprocessRefs - 1 }

/-- `ObOpenObjectByPointer` succeeded: one handle opened. -/
def openHandle (r : KernelResources) : KernelResources :=
  { r with openHandles := r.openHandles + 1 }

/-- `ExAllocatePoolWithTag` succeeded for the scratch buffer. -/
def allocScratch (r : KernelResources) : KernelResources :=
  { r with scratchAllocs := r.scratchAllocs + 1 }

/-- `ExFreePoolWithTag` on the scratch buffer. -/
def freeScratch (r : KernelResources) : KernelResources :=
  { r with scratchAllocs := r.scratchAllocs - 1 }

/-- Modelled from the spec: `sizeof(UNICODE_STRING)` on the 64-bit target; the
struct declaration lives outside this repository.  No claim below depends on
the constant. -/
def SIZEOF_UNICODE_STRING : Nat := 16

/-- Environment of one `UserAccessAllocateAndGetImagePathFromProcessId` call:
outcomes of the OS queries and allocations it performs, in program order. -/
structure ImagePathEnv where
  lookupOk : Bool
  openOk : Bool
  zwQueryAvailable : Bool
  probeIsLengthMismatch : Bool
  probeReturnedLength : Nat
  scratchAllocOk : Bool
  secondQueryOk : Bool
  outAllocOk : Bool

/-- Embedding of `UserAccessAllocateAndGetImagePathFromProcessId`
(`UserAccess.c` lines 27-161).  Returns the `BOOLEAN` result together with the
resources still outstanding at the return that was taken. -/
def UserAccessAllocateAndGetImagePathFromProcessId (env : ImagePathEnv)
    (SizeOfImageNameToBeAllocated : Nat) : Bool × KernelResources :=
  if env.lookupOk = false then
    -- PsLookupProcessByProcessId failed: nothing acquired (line 64)
    (false, noResources)
  else
    -- reference to EProcess acquired (line 45)
    let r1 := acquireRef noResources
    if env.openOk = false then
      -- line 54: returns without ObDereferenceObject(EProcess)
      (false, r1)
    else
      -- handle opened (line 49), then ObDereferenceObject(EProcess) (line 57);
      -- the handle is never closed anywhere below
      let r2 := releaseRef (openHandle r1)
      if env.zwQueryAvailable = false then (false, r2)
      else if env.probeIsLengthMismatch = false then
        -- first query did not return STATUS_INFO_LENGTH_MISMATCH (line 86)
        (false, r2)
      else
        -- BufferLength = ReturnedLength - sizeof(UNICODE_STRING), ULONG wrap
        let bufferLength :=
          (env.probeReturnedLength + 2 ^ 32 - SIZEOF_UNICODE_STRING) % 2 ^ 32
        if SizeOfImageNameToBeAllocated < bufferLength then (false, r2)
        else if env.scratchAllocOk = false then
          -- scratch allocation failed (line 107)
          (false, r2)
        else
          let r3 := allocScratch r2
          if env.secondQueryOk then
            if env.outAllocOk = false then
              -- line 135: returns without freeing the scratch buffer
              (false, r3)
            else
              -- path copied, scratch freed (line 148)
              (true, freeScratch r3)
          else
            -- second query failed, scratch freed (line 158)
            (false, freeScratch r3)

/-- Environment of one `UserAccessGetPebFromProcessId` call. -/
structure PebEnv where
  lookupOk : Bool
  openOk : Bool
  zwQueryAvailable : Bool
  queryOk : Bool
  pebBaseAddress : Nat

/-- Embedding of `UserAccessGetPebFromProcessId` (`UserAccess.c` lines
171-231).  Returns `some peb` for `TRUE` (with `*Peb` written), `none` for
`FALSE`, together with the outstanding resources at the return taken. -/
def UserAccessGetPebFromProcessId (env : PebEnv) : Option Nat × KernelResources :=
  if env.lookupOk = false then
    (none, noResources)
  else
    let r1 := acquireRef noResources
    if env.openOk = false then
      -- line 195: returns without ObDereferenceObject(EProcess)
      (none, r1)
    else
      -- handle opened (line 190), reference dropped (line 198);
      -- the handle is never closed anywhere below
      let r2 := releaseRef (openHandle r1)
      if env.zwQueryAvailable = false then (none, r2)
      else if env.queryOk then (some env.pebBaseAddress, r2)
      else (none, r2)

/-! ## The module-list walkers -/

/-- One visited module record as emitted by the walkers (the four fields the
`Log` calls print). -/
structure ModuleRecord where
  Base : Nat
  EntryPoint : Nat
  ModuleName : List Char
  Path : List Char
  deriving DecidableEq, Repr

/-- The fields of a native `LDR_DATA_TABLE_ENTRY` read by the x64 walker. -/
structure LDR_DATA_TABLE_ENTRY where
  DllBase : Nat
  EntryPoint : Nat
  BaseDllName : List Char
  FullDllName : List Char
  deriving DecidableEq, Repr

/-- The fields of a 32-bit `LDR_DATA_TABLE_ENTRY32` read by the x86 walker;
addresses are 32-bit on disk and are widened (zero-extended) to 64 bits when
emitted, which on `Nat` is the identity. -/
structure LDR_DATA_TABLE_ENTRY32 where
  DllBase : Nat
  EntryPoint : Nat
  BaseDllName : List Char
  FullDllName : List Char
  deriving DecidableEq, Repr

/-- What the x64 loop body logs for one entry (`UserAccess.c` lines 283-287). -/
def record64 (e : LDR_DATA_TABLE_ENTRY) : ModuleRecord :=
  ⟨e.DllBase, e.EntryPoint, e.BaseDllName, e.FullDllName⟩

/-- What the x86 loop body logs for one entry after widening
(`UserAccess.c` lines 350-370). -/
def record32 (e : LDR_DATA_TABLE_ENTRY32) : ModuleRecord :=
  ⟨e.DllBase, e.EntryPoint, e.BaseDllName, e.FullDllName⟩

/-- The module list in target-process memory: a node address maps to the
`Flink` pointer of its `LIST_ENTRY` together with the containing loader
entry (`CONTAINING_RECORD`), or to `none` if the address is not a mapped
list node. -/
abbrev LdrMem (α : Type) := Nat → Option (Nat × α)

/-- The traversal loop shared by both walkers (`UserAccess.c` lines 276-288
and 338-371): start at the head's `Flink`, stop when the cursor returns to
the list head's own address, emit one record per visited entry.  `fuel`
bounds the number of steps so the embedding is total; `none` models an
execution that never returns normally (an unmapped node dereference or an
unbounded chain, which in the kernel is a crash or hang, not a return). -/
def walkLoop {α : Type} (mem : LdrMem α) (extract : α → ModuleRecord)
    (sentinel : Nat) : Nat → Nat → Option (List ModuleRecord)
  | _, 0 => none
  | cur, fuel + 1 =>
    if cur = sentinel then some []
    else
      match mem cur with
      | none => none
      | some (flink, entry) =>
        match walkLoop mem extract sentinel flink fuel with
        | none => none
        | some rest => some (extract entry :: rest)

/-- The `PEB_LDR_DATA` anchor as the walkers read it: the address of the list
head field (`&Ldr->ModuleListLoadOrder` resp. `&Ldr->InLoadOrderModuleList`)
and its `Flink`. -/
structure PEB_LDR_DATA where
  headAddr : Nat
  headFlink : Nat

/-- The x64 process state the walker consults: availability of the unexported
`PsGetProcessPeb`, the PEB pointer it returns (`none` for NULL), the `Ldr`
field of that PEB (`none` for NULL), and the module-list memory. -/
structure X64ProcessEnv where
  psGetProcessPebAvailable : Bool
  peb : Option (Option PEB_LDR_DATA)
  mem : LdrMem LDR_DATA_TABLE_ENTRY

/-- The x86 (WOW64) process state the walker consults. -/
structure X86ProcessEnv where
  psGetProcessWow64Available : Bool
  peb : Option (Option PEB_LDR_DATA)
  mem : LdrMem LDR_DATA_TABLE_ENTRY32

/-- Observable outcome of one walker call: the returned `BOOLEAN` (`none`
when the call never returns normally), the records emitted by `Log`, and the
number of `KeStackAttachProcess` / `KeUnstackDetachProcess` calls executed. -/
structure WalkOutcome where
  returned : Option Bool
  records : List ModuleRecord
  attaches : Nat
  detaches : Nat
  deriving DecidableEq, Repr

/-- Embedding of `UserAccessPrintLoadedModulesX64` (`UserAccess.c` lines
240-293). -/
def UserAccessPrintLoadedModulesX64 (p : X64ProcessEnv) (fuel : Nat) : WalkOutcome :=
  if p.psGetProcessPebAvailable = false then ⟨some false, [], 0, 0⟩
  else
    match p.peb with
    | none => ⟨some false, [], 0, 0⟩
    | some ldrField =>
      -- KeStackAttachProcess (line 263)
      match ldrField with
      | none =>
        -- Ldr == NULL: KeUnstackDetachProcess, return FALSE (lines 267-270)
        ⟨some false, [], 1, 1⟩
      | some ldr =>
        match walkLoop p.mem record64 ldr.headAddr ldr.headFlink fuel with
        | none => ⟨none, [], 1, 0⟩
        | some recs =>
          -- KeUnstackDetachProcess, return TRUE (lines 290-292)
          ⟨some true, recs, 1, 1⟩

/-- Embedding of `UserAccessPrintLoadedModulesX86` (`UserAccess.c` lines
302-376). -/
def UserAccessPrintLoadedModulesX86 (p : X86ProcessEnv) (fuel : Nat) : WalkOutcome :=
  if p.psGetProcessWow64Available = false then ⟨some false, [], 0, 0⟩
  else
    match p.peb with
    | none => ⟨some false, [], 0, 0⟩
    | some ldrField =>
      -- KeStackAttachProcess (line 325)
      match ldrField with
      | none =>
        -- Ldr == NULL: KeUnstackDetachProcess, return FALSE (lines 329-332)
        ⟨some false, [], 1, 1⟩
      | some ldr =>
        match walkLoop p.mem record32 ldr.headAddr ldr.headFlink fuel with
        | none => ⟨none, [], 1, 0⟩
        | some recs =>
          -- KeUnstackDetachProcess, return TRUE (lines 373-375)
          ⟨some true, recs, 1, 1⟩

/-- A well-formed tail of the circular load-order list: from address `a` the
`Flink` chain passes through the entries `es` and then reaches the list
head address `sentinel`. -/
inductive LdrChain {α : Type} (mem : LdrMem α) (sentinel : Nat) :
    Nat → List α → Prop
  | nil : LdrChain mem sentinel sentinel []
  | cons {a flink : Nat} {e : α} {es : List α} :
      a ≠ sentinel → mem a = some (flink, e) →
      LdrChain mem sentinel flink es →
      LdrChain mem sentinel a (e :: es)

/-! ## Helper lemmas -/

theorem selectKeyword_fields {sec : Token} {st st' : EMState}
    (h : selectKeyword sec st = .ok st') :
    st'.SetAddress = st.SetAddress ∧ st'.SetValue = st.SetValue ∧
    st'.SetProcId = st.SetProcId ∧ st'.NextIsProcId = st.NextIsProcId ∧
    st'.Address = st.Address ∧ st'.ProcId = st.ProcId ∧
    st'.CountOfValues = st.CountOfValues ∧ st'.ValuesToEdit = st.ValuesToEdit := by
  unfold selectKeyword at h
  split_ifs at h <;> cases h <;> exact ⟨rfl, rfl, rfl, rfl, rfl, rfl, rfl, rfl⟩

theorem processToken_count {first sec : Token} {st st' : EMState}
    (h : processToken first st sec = .ok st')
    (hinv : st.CountOfValues = st.ValuesToEdit.length) :
    st'.CountOfValues = st'.ValuesToEdit.length := by
  unfold processToken at h
  split at h
  · obtain ⟨-, -, -, -, -, -, hc, hv⟩ := selectKeyword_fields h
    rw [hc, hv]; exact hinv
  · split at h
    · split at h
      · cases h
      · cases h; simpa using hinv
    · split at h
      · cases h; simpa using hinv
      · split at h
        · split at h
          · cases h
          · cases h; simpa using hinv
        · split at h
          · cases h
          · split at h
            · cases h
            · split at h
              · cases h
              · split at h
                · cases h
                · cases h
                  simpa using hinv

theorem processTokens_count :
    ∀ (cmd : List Token) {first : Token} {st st' : EMState},
      processTokens first st cmd = .ok st' →
      st.CountOfValues = st.ValuesToEdit.length →
      st'.CountOfValues = st'.ValuesToEdit.length := by
  intro cmd
  induction cmd with
  | nil => intro first st st' h hinv; cases h; exact hinv
  | cons sec rest ih =>
    intro first st st' h hinv
    unfold processTokens at h
    split at h
    · cases h
    · rename_i st1 heq
      exact ih h (processToken_count heq hinv)

theorem processTokens_append (first : Token) :
    ∀ (l1 l2 : List Token) (st : EMState),
      processTokens first st (l1 ++ l2) =
        match processTokens first st l1 with
        | .error e => .error e
        | .ok st' => processTokens first st' l2 := by
  intro l1
  induction l1 with
  | nil => intro l2 st; rfl
  | cons sec rest ih =>
    intro l2 st
    simp only [List.cons_append, processTokens]
    cases processToken first st sec with
    | error e => rfl
    | ok st' => exact ih l2 st'

theorem headerBytes_length (r : DEBUGGER_EDIT_MEMORY) :
    (headerBytes r).length = SIZEOF_DEBUGGER_EDIT_MEMORY := rfl

theorem copyValues_length (vs : List Nat) : (copyValues vs).length = 8 * vs.length := by
  induction vs with
  | nil => rfl
  | cons v vs ih =>
    simp only [copyValues, le8Bytes, List.length_append, List.length_cons,
      List.length_nil, ih]
    omega

theorem le8Bytes_length (v : Nat) : (le8Bytes v).length = 8 := rfl

theorem copyValues_slot :
    ∀ (vs : List Nat) (i : Nat) (hi : i < vs.length),
      ((copyValues vs).drop (8 * i)).take 8 = le8Bytes (vs.get ⟨i, hi⟩) := by
  intro vs
  induction vs with
  | nil => intro i hi; exact absurd hi (Nat.not_lt_zero i)
  | cons v vs ih =>
    intro i hi
    cases i with
    | zero =>
      show ((le8Bytes v ++ copyValues vs).drop 0).take 8 = le8Bytes v
      rw [List.drop_zero]
      rw [List.take_append_of_le_length (by rw [le8Bytes_length])]
      simp [le8Bytes]
    | succ i =>
      show ((le8Bytes v ++ copyValues vs).drop (8 * (i + 1))).take 8 = _
      have h8 : 8 * (i + 1) = (le8Bytes v).length + 8 * i := by
        rw [le8Bytes_length]; omega
      rw [h8, List.drop_append]
      exact ih i (Nat.lt_of_succ_lt_succ hi)

theorem buildFinalBuffer_length (r : DEBUGGER_EDIT_MEMORY) (vs : List Nat) :
    (buildFinalBuffer r vs).length = SIZEOF_DEBUGGER_EDIT_MEMORY + 8 * vs.length := by
  simp only [buildFinalBuffer, List.length_append, headerBytes_length,
    copyValues_length]

theorem buildFinalBuffer_take (r : DEBUGGER_EDIT_MEMORY) (vs : List Nat) :
    (buildFinalBuffer r vs).take SIZEOF_DEBUGGER_EDIT_MEMORY = headerBytes r := by
  rw [buildFinalBuffer,
    List.take_append_of_le_length (by simp [headerBytes_length]),
    ← headerBytes_length r, List.take_length]

theorem buildFinalBuffer_slot (r : DEBUGGER_EDIT_MEMORY) (vs : List Nat)
    (i : Nat) (hi : i < vs.length) :
    ((buildFinalBuffer r vs).drop (SIZEOF_DEBUGGER_EDIT_MEMORY + 8 * i)).take 8 =
      le8Bytes (vs.get ⟨i, hi⟩) := by
  have h1 : SIZEOF_DEBUGGER_EDIT_MEMORY + 8 * i = (headerBytes r).length + 8 * i := by
    rw [headerBytes_length]
  rw [buildFinalBuffer, h1, List.drop_append]
  exact copyValues_slot vs i hi

theorem CommandEditMemoryParse_error {first : Token} {tail : List Token}
    {pid : Nat} {e : EMError} (h2 : ¬((first :: tail).length ≤ 2))
    (hscan : processTokens first (initState pid) (first :: tail) = .error e) :
    CommandEditMemoryParse (first :: tail) pid = .error e := by
  unfold CommandEditMemoryParse
  rw [if_neg h2]
  simp only [hscan]

theorem CommandEditMemoryParse_ok_state {first : Token} {tail : List Token}
    {pid : Nat} {st : EMState} (h2 : ¬((first :: tail).length ≤ 2))
    (hscan : processTokens first (initState pid) (first :: tail) = .ok st) :
    CommandEditMemoryParse (first :: tail) pid =
      (if st.SetAddress = false then .error .missingAddress
       else if st.SetValue = false then .error .missingValue
       else if st.NextIsProcId then .error .missingPid
       else .ok ({ MemoryType := st.MemoryType
                   ByteSize := st.ByteSize
                   Address := st.Address
                   ProcessId := st.ProcId
                   CountOf64Chunks := st.CountOfValues
                   FinalStructureSize :=
                     st.CountOfValues * 8 + SIZEOF_DEBUGGER_EDIT_MEMORY },
                 st.ValuesToEdit)) := by
  unfold CommandEditMemoryParse
  rw [if_neg h2]
  simp only [hscan]

theorem CommandEditMemoryRun_of_error {cmd : List Token} {pid : Nat}
    {env : ClientEnv} {e : EMError}
    (h : CommandEditMemoryParse cmd pid = .error e) :
    CommandEditMemoryRun cmd pid env =
      { result := .error e, allocAttempted := false, ioctlAttempted := false,
        sentBuffer := none } := by
  unfold CommandEditMemoryRun
  simp only [h]

/-! ## Claim theorems -/

/-- C2 (code bug): `SetProcId` is declared and tested in `CommandEditMemory`
but never assigned `TRUE`, so a second `pid <hex-id>` pair is honored again
and overwrites the recorded process id.  On the stream
`eb 1000 pid 1 90 pid 2 90` the finalized descriptor records process id `2`,
not the first pid `1`: the claim that markers after the first are not treated
as pid markers fails on the code. -/
theorem edit_memory_second_pid_overrides_first :
    CommandEditMemoryParse
        [['e', 'b'], ['1', '0', '0', '0'], ['p', 'i', 'd'], ['1'], ['9', '0'],
         ['p', 'i', 'd'], ['2'], ['9', '0']] 9 =
      .ok ({ MemoryType := .EDIT_VIRTUAL_MEMORY
             ByteSize := .EDIT_BYTE
             Address := 0x1000
             ProcessId := 2
             CountOf64Chunks := 2
             FinalStructureSize := 44 }, [0x90, 0x90]) := by
  decide

/-- C10: a token equal to the first token (the command keyword) is always
consumed by the keyword-selection branch again, leaving the address, value,
and pid state untouched; for the stream `eb eb 90` the second `eb` is
skipped, `90` becomes the address, and the command fails for lack of a value
token. -/
theorem keyword_token_always_reconsumed (first sec : Token) (st st' : EMState)
    (hsec : sec = first) (hok : processToken first st sec = .ok st') :
    (st'.SetAddress = st.SetAddress ∧ st'.SetValue = st.SetValue ∧
     st'.SetProcId = st.SetProcId ∧ st'.NextIsProcId = st.NextIsProcId ∧
     st'.Address = st.Address ∧ st'.ProcId = st.ProcId ∧
     st'.ValuesToEdit = st.ValuesToEdit) ∧
    processTokens ['e', 'b'] (initState 7) [['e', 'b'], ['e', 'b'], ['9', '0']] =
      .ok { initState 7 with SetAddress := true, Address := 0x90 } ∧
    CommandEditMemoryParse [['e', 'b'], ['e', 'b'], ['9', '0']] 7 =
      .error .missingValue := by
  refine ⟨?_, by decide, by decide⟩
  subst hsec
  unfold processToken at hok
  rw [if_pos rfl] at hok
  obtain ⟨h1, h2, h3, h4, h5, h6, -, h8⟩ := selectKeyword_fields hok
  exact ⟨h1, h2, h3, h4, h5, h6, h8⟩

/-- Witness for C10 at `first = sec = eb`, showing its hypotheses are
satisfiable. -/
theorem keyword_token_always_reconsumed_witness :
    ((initState 7).SetAddress = (initState 7).SetAddress ∧
     (initState 7).SetValue = (initState 7).SetValue ∧
     (initState 7).SetProcId = (initState 7).SetProcId ∧
     (initState 7).NextIsProcId = (initState 7).NextIsProcId ∧
     (initState 7).Address = (initState 7).Address ∧
     (initState 7).ProcId = (initState 7).ProcId ∧
     (initState 7).ValuesToEdit = (initState 7).ValuesToEdit) ∧
    processTokens ['e', 'b'] (initState 7) [['e', 'b'], ['e', 'b'], ['9', '0']] =
      .ok { initState 7 with SetAddress := true, Address := 0x90 } ∧
    CommandEditMemoryParse [['e', 'b'], ['e', 'b'], ['9', '0']] 7 =
      .error .missingValue :=
  keyword_token_always_reconsumed ['e', 'b'] ['e', 'b'] (initState 7)
    (initState 7) rfl (by decide)

/-- C1: for every token stream accepted by the edit-memory command builder,
the finalized request's total wire size equals the fixed header size plus
8 bytes times the number of accepted value tokens, independent of the
selected element width, and the accepted values are copied in encounter order
into consecutive 8-byte slots immediately after the header. -/
theorem edit_memory_wire_size_and_layout (cmd : List Token) (currentPid : Nat)
    (req : DEBUGGER_EDIT_MEMORY) (values : List Nat)
    (hok : CommandEditMemoryParse cmd currentPid = .ok (req, values)) :
    req.FinalStructureSize = SIZEOF_DEBUGGER_EDIT_MEMORY + 8 * values.length ∧
    req.CountOf64Chunks = values.length ∧
    (buildFinalBuffer req values).length = req.FinalStructureSize ∧
    (buildFinalBuffer req values).take SIZEOF_DEBUGGER_EDIT_MEMORY = headerBytes req ∧
    ∀ i (hi : i < values.length),
      ((buildFinalBuffer req values).drop (SIZEOF_DEBUGGER_EDIT_MEMORY + 8 * i)).take 8
        = le8Bytes (values.get ⟨i, hi⟩) := by
  rcases cmd with - | ⟨first, tail⟩
  · simp [CommandEditMemoryParse] at hok
  · by_cases h2 : (first :: tail).length ≤ 2
    · unfold CommandEditMemoryParse at hok
      rw [if_pos h2] at hok
      cases hok
    · rcases hscan : processTokens first (initState currentPid) (first :: tail)
        with e | st
      · rw [CommandEditMemoryParse_error h2 hscan] at hok
        cases hok
      · rw [CommandEditMemoryParse_ok_state h2 hscan] at hok
        split_ifs at hok
        have hcount : st.CountOfValues = st.ValuesToEdit.length :=
          processTokens_count _ hscan rfl
        simp only [Except.ok.injEq, Prod.mk.injEq] at hok
        obtain ⟨hreq, hvals⟩ := hok
        subst hreq
        subst hvals
        refine ⟨?_, hcount, ?_, buildFinalBuffer_take _ _,
          fun i hi => buildFinalBuffer_slot _ _ i hi⟩
        · show st.CountOfValues * 8 + SIZEOF_DEBUGGER_EDIT_MEMORY =
            SIZEOF_DEBUGGER_EDIT_MEMORY + 8 * st.ValuesToEdit.length
          omega
        · rw [buildFinalBuffer_length]
          show SIZEOF_DEBUGGER_EDIT_MEMORY + 8 * st.ValuesToEdit.length =
            st.CountOfValues * 8 + SIZEOF_DEBUGGER_EDIT_MEMORY
          omega

/-- Witness for C1 at the spec's example command `eb 1000 90`. -/
theorem edit_memory_wire_size_and_layout_witness :
    ({ MemoryType := .EDIT_VIRTUAL_MEMORY
       ByteSize := .EDIT_BYTE
       Address := 0x1000
       ProcessId := 7
       CountOf64Chunks := 1
       FinalStructureSize := 36 } : DEBUGGER_EDIT_MEMORY).FinalStructureSize =
      SIZEOF_DEBUGGER_EDIT_MEMORY + 8 * [(0x90 : Nat)].length :=
  (edit_memory_wire_size_and_layout
    [['e', 'b'], ['1', '0', '0', '0'], ['9', '0']] 7 _ [0x90] (by decide)).1

/-- C4: in any scan state that routes the next token to the value branch, a
token whose stripped hex-digit length is at or above the width's forbidden
threshold (3 for byte, 9 for dword, 17 for qword) is rejected with that
width's diagnostic, no value is queued, and the whole command aborts before
any buffer allocation and before any transport call. -/
theorem edit_memory_width_threshold_rejects (first sec : Token)
    (pre suf : List Token) (currentPid : Nat) (st : EMState) (env : ClientEnv)
    (hpre : processTokens first (initState currentPid) (first :: pre) = .ok st)
    (hne : sec ≠ first) (hnp : st.NextIsProcId = false)
    (hpid : ¬(st.SetProcId = false ∧ sec = ['p', 'i', 'd']))
    (haddr : st.SetAddress = true)
    (hlen : widthThreshold st.ByteSize ≤ (removeBackticks (stripHexMarker sec)).length) :
    processToken first st sec = .error (widthError st.ByteSize) ∧
    (CommandEditMemoryRun (first :: (pre ++ sec :: suf)) currentPid env).result =
      .error (widthError st.ByteSize) ∧
    (CommandEditMemoryRun (first :: (pre ++ sec :: suf)) currentPid env).allocAttempted
      = false ∧
    (CommandEditMemoryRun (first :: (pre ++ sec :: suf)) currentPid env).sentBuffer
      = none := by
  have hstep : processToken first st sec = .error (widthError st.ByteSize) := by
    unfold processToken
    rw [if_neg hne, if_neg (by simp [hnp]), if_neg hpid,
      if_neg (by simp [haddr])]
    revert hlen
    cases st.ByteSize with
    | EDIT_BYTE =>
      intro hlen
      rw [if_pos ⟨rfl, hlen⟩]
      rfl
    | EDIT_DWORD =>
      intro hlen
      rw [if_neg (by simp), if_pos ⟨rfl, hlen⟩]
      rfl
    | EDIT_QWORD =>
      intro hlen
      rw [if_neg (by simp), if_neg (by simp), if_pos ⟨rfl, hlen⟩]
      rfl
  have hpre_ne : pre ≠ [] := by
    intro hnil
    subst hnil
    have h0 : processToken first (initState currentPid) first =
        selectKeyword first (initState currentPid) := by
      unfold processToken
      rw [if_pos rfl]
    rcases hsel : selectKeyword first (initState currentPid) with e | st1
    · unfold processTokens at hpre
      rw [h0, hsel] at hpre
      cases hpre
    · unfold processTokens at hpre
      rw [h0, hsel] at hpre
      unfold processTokens at hpre
      cases hpre
      obtain ⟨ha, -⟩ := selectKeyword_fields hsel
      simp [initState, haddr] at ha
  have h2 : ¬((first :: (pre ++ sec :: suf)).length ≤ 2) := by
    rcases pre with - | ⟨p, pre'⟩
    · exact absurd rfl hpre_ne
    · simp
  have hloop : processTokens first (initState currentPid)
      (first :: (pre ++ sec :: suf)) = .error (widthError st.ByteSize) := by
    have hsplit : first :: (pre ++ sec :: suf) = (first :: pre) ++ (sec :: suf) := by
      simp
    rw [hsplit, processTokens_append, hpre]
    show processTokens first st (sec :: suf) = _
    unfold processTokens
    rw [hstep]
  have hparse : CommandEditMemoryParse (first :: (pre ++ sec :: suf)) currentPid =
      .error (widthError st.ByteSize) := CommandEditMemoryParse_error h2 hloop
  rw [CommandEditMemoryRun_of_error hparse]
  exact ⟨hstep, rfl, rfl, rfl⟩

/-- Witness for C4: after `eb 1000`, the value token `123` (three stripped
hex digits) is rejected for the byte width. -/
theorem edit_memory_width_threshold_rejects_witness :
    processToken ['e', 'b']
        { SetAddress := true
          SetValue := false
          SetProcId := false
          NextIsProcId := false
          MemoryType := .EDIT_VIRTUAL_MEMORY
          ByteSize := .EDIT_BYTE
          Address := 0x1000
          ProcId := 7
          CountOfValues := 0
          ValuesToEdit := [] } ['1', '2', '3'] =
      .error (widthError .EDIT_BYTE) ∧
    (CommandEditMemoryRun
        [['e', 'b'], ['1', '0', '0', '0'], ['1', '2', '3']] 7
        ⟨true, true, true⟩).allocAttempted = false :=
  have h := edit_memory_width_threshold_rejects ['e', 'b'] ['1', '2', '3']
    [['1', '0', '0', '0']] [] 7
    { SetAddress := true
      SetValue := false
      SetProcId := false
      NextIsProcId := false
      MemoryType := .EDIT_VIRTUAL_MEMORY
      ByteSize := .EDIT_BYTE
      Address := 0x1000
      ProcId := 7
      CountOfValues := 0
      ValuesToEdit := [] } ⟨true, true, true⟩
    (by decide) (by decide) rfl (by decide) rfl (by decide)
  ⟨h.1, h.2.2.1⟩

/-- C5: after the token scan, a missing address, a missing value, or a
dangling `pid` marker each abort the command with its own distinct
diagnostic, with no transport call attempted and no buffer handed out. -/
theorem edit_memory_post_scan_validation (first : Token) (tail : List Token)
    (currentPid : Nat) (st : EMState) (env : ClientEnv)
    (hlen : 2 < (first :: tail).length)
    (hscan : processTokens first (initState currentPid) (first :: tail) = .ok st)
    (hbad : st.SetAddress = false ∨ st.SetValue = false ∨ st.NextIsProcId = true) :
    (CommandEditMemoryRun (first :: tail) currentPid env).result =
      .error (if st.SetAddress = false then .missingAddress
              else if st.SetValue = false then .missingValue
              else .missingPid) ∧
    (CommandEditMemoryRun (first :: tail) currentPid env).allocAttempted = false ∧
    (CommandEditMemoryRun (first :: tail) currentPid env).ioctlAttempted = false ∧
    (CommandEditMemoryRun (first :: tail) currentPid env).sentBuffer = none := by
  have h2 : ¬((first :: tail).length ≤ 2) := by omega
  have hparse : CommandEditMemoryParse (first :: tail) currentPid =
      .error (if st.SetAddress = false then .missingAddress
              else if st.SetValue = false then .missingValue
              else .missingPid) := by
    rw [CommandEditMemoryParse_ok_state h2 hscan]
    by_cases ha : st.SetAddress = false
    · simp [ha]
    · by_cases hv : st.SetValue = false
      · simp [ha, hv]
      · rcases hbad with h | h | h
        · exact absurd h ha
        · exact absurd h hv
        · simp [ha, hv, h]
  rw [CommandEditMemoryRun_of_error hparse]
  exact ⟨rfl, rfl, rfl, rfl⟩

/-- Witness for C5 at `eb 1000 pid` (a value is missing and the `pid` marker
dangles): diagnostic is the missing-value one, and no transport occurs. -/
theorem edit_memory_post_scan_validation_witness :
    (CommandEditMemoryRun [['e', 'b'], ['1', '0', '0', '0'], ['p', 'i', 'd']] 7
        ⟨true, true, true⟩).result = .error .missingValue ∧
    (CommandEditMemoryRun [['e', 'b'], ['1', '0', '0', '0'], ['p', 'i', 'd']] 7
        ⟨true, true, true⟩).ioctlAttempted = false :=
  have h := edit_memory_post_scan_validation ['e', 'b']
    [['1', '0', '0', '0'], ['p', 'i', 'd']] 7
    { SetAddress := true
      SetValue := false
      SetProcId := false
      NextIsProcId := true
      MemoryType := .EDIT_VIRTUAL_MEMORY
      ByteSize := .EDIT_BYTE
      Address := 0x1000
      ProcId := 7
      CountOfValues := 0
      ValuesToEdit := [] } ⟨true, true, true⟩
    (by decide) (by decide) (Or.inr (Or.inl rfl))
  ⟨h.1, h.2.2.1⟩

/-- C3 (code bug): the handle opened by `ObOpenObjectByPointer` is never
closed on any path of either introspection call, and on the path where the
open itself fails the `EPROCESS` reference from `PsLookupProcessByProcessId`
is never dereferenced; so not every exit path taken after an acquisition
releases every acquired reference and handle.  Evaluated here at the four
relevant environments: both calls return from their success path with one
handle still open, and from their open-failure path with one reference still
held. -/
theorem introspection_handle_and_ref_leak :
    UserAccessAllocateAndGetImagePathFromProcessId
        ⟨true, true, true, true, 32, true, true, true⟩ 512 = (true, ⟨0, 1, 0⟩) ∧
    UserAccessAllocateAndGetImagePathFromProcessId
        ⟨true, false, true, true, 32, true, true, true⟩ 512 = (false, ⟨1, 0, 0⟩) ∧
    UserAccessGetPebFromProcessId ⟨true, true, true, true, 0x7ffd0000⟩ =
      (some 0x7ffd0000, ⟨0, 1, 0⟩) ∧
    UserAccessGetPebFromProcessId ⟨true, false, true, true, 0x7ffd0000⟩ =
      (none, ⟨1, 0, 0⟩) := by
  refine ⟨by decide, by decide, by decide, by decide⟩

/-- C6 (code bug): on the success branch of the second size-informed query,
if the allocation of the caller-owned output buffer fails, the function
returns `FALSE` without freeing the scratch buffer (`UserAccess.c` line 135),
so not every path that reaches the second query frees the scratch allocation;
the two branches the claim names (query success with output allocation
succeeding, and query failure) do free it. -/
theorem image_path_scratch_leak_on_output_alloc_failure :
    UserAccessAllocateAndGetImagePathFromProcessId
        ⟨true, true, true, true, 32, true, true, false⟩ 512 = (false, ⟨0, 1, 1⟩) ∧
    (UserAccessAllocateAndGetImagePathFromProcessId
        ⟨true, true, true, true, 32, true, true, true⟩ 512).2.scratchAllocs = 0 ∧
    (UserAccessAllocateAndGetImagePathFromProcessId
        ⟨true, true, true, true, 32, true, false, true⟩ 512).2.scratchAllocs = 0 := by
  refine ⟨by decide, by decide, by decide⟩

theorem walkX64_balanced (p : X64ProcessEnv) (fuel : Nat) (b : Bool)
    (h : (UserAccessPrintLoadedModulesX64 p fuel).returned = some b) :
    (UserAccessPrintLoadedModulesX64 p fuel).detaches =
      (UserAccessPrintLoadedModulesX64 p fuel).attaches ∧
    (UserAccessPrintLoadedModulesX64 p fuel).attaches ≤ 1 := by
  by_cases hav : p.psGetProcessPebAvailable = false
  · simp [UserAccessPrintLoadedModulesX64, hav]
  · rcases hpeb : p.peb with - | ldrField
    · simp [UserAccessPrintLoadedModulesX64, hav, hpeb]
    · rcases ldrField with - | ldr
      · simp [UserAccessPrintLoadedModulesX64, hav, hpeb]
      · rcases hw : walkLoop p.mem record64 ldr.headAddr ldr.headFlink fuel
          with - | recs
        · simp [UserAccessPrintLoadedModulesX64, hav, hpeb, hw] at h
        · simp [UserAccessPrintLoadedModulesX64, hav, hpeb, hw]

theorem walkX86_balanced (q : X86ProcessEnv) (fuel : Nat) (b : Bool)
    (h : (UserAccessPrintLoadedModulesX86 q fuel).returned = some b) :
    (UserAccessPrintLoadedModulesX86 q fuel).detaches =
      (UserAccessPrintLoadedModulesX86 q fuel).attaches ∧
    (UserAccessPrintLoadedModulesX86 q fuel).attaches ≤ 1 := by
  by_cases hav : q.psGetProcessWow64Available = false
  · simp [UserAccessPrintLoadedModulesX86, hav]
  · rcases hpeb : q.peb with - | ldrField
    · simp [UserAccessPrintLoadedModulesX86, hav, hpeb]
    · rcases ldrField with - | ldr
      · simp [UserAccessPrintLoadedModulesX86, hav, hpeb]
      · rcases hw : walkLoop q.mem record32 ldr.headAddr ldr.headFlink fuel
          with - | recs
        · simp [UserAccessPrintLoadedModulesX86, hav, hpeb, hw] at h
        · simp [UserAccessPrintLoadedModulesX86, hav, hpeb, hw]

theorem walkX64_ldr_absent (p : X64ProcessEnv) (fuel : Nat)
    (hav : p.psGetProcessPebAvailable = true) (hpeb : p.peb = some none) :
    UserAccessPrintLoadedModulesX64 p fuel = ⟨some false, [], 1, 1⟩ := by
  simp [UserAccessPrintLoadedModulesX64, hav, hpeb]

theorem walkX86_ldr_absent (q : X86ProcessEnv) (fuel : Nat)
    (hav : q.psGetProcessWow64Available = true) (hpeb : q.peb = some none) :
    UserAccessPrintLoadedModulesX86 q fuel = ⟨some false, [], 1, 1⟩ := by
  simp [UserAccessPrintLoadedModulesX86, hav, hpeb]

/-- C7: in both module-walk variants, on every execution that returns, the
number of attaches equals the number of detaches and is at most one; and on
the path where the loader structure is absent the attach/detach pair executes
exactly once and the call returns the defined failure rather than crashing. -/
theorem module_walk_attach_detach_balanced (p : X64ProcessEnv)
    (q : X86ProcessEnv) (fuel : Nat) (b b' : Bool)
    (h64 : (UserAccessPrintLoadedModulesX64 p fuel).returned = some b)
    (h32 : (UserAccessPrintLoadedModulesX86 q fuel).returned = some b') :
    ((UserAccessPrintLoadedModulesX64 p fuel).detaches =
        (UserAccessPrintLoadedModulesX64 p fuel).attaches ∧
      (UserAccessPrintLoadedModulesX64 p fuel).attaches ≤ 1) ∧
    ((UserAccessPrintLoadedModulesX86 q fuel).detaches =
        (UserAccessPrintLoadedModulesX86 q fuel).attaches ∧
      (UserAccessPrintLoadedModulesX86 q fuel).attaches ≤ 1) ∧
    (p.psGetProcessPebAvailable = true → p.peb = some none →
      UserAccessPrintLoadedModulesX64 p fuel = ⟨some false, [], 1, 1⟩) ∧
    (q.psGetProcessWow64Available = true → q.peb = some none →
      UserAccessPrintLoadedModulesX86 q fuel = ⟨some false, [], 1, 1⟩) :=
  ⟨walkX64_balanced p fuel b h64, walkX86_balanced q fuel b' h32,
   fun hav hpeb => walkX64_ldr_absent p fuel hav hpeb,
   fun hav hpeb => walkX86_ldr_absent q fuel hav hpeb⟩

/-- Witness for C7 at a process whose loader structure is absent. -/
theorem module_walk_attach_detach_balanced_witness :
    UserAccessPrintLoadedModulesX64 ⟨true, some none, fun _ => none⟩ 1 =
      ⟨some false, [], 1, 1⟩ ∧
    UserAccessPrintLoadedModulesX86 ⟨true, some none, fun _ => none⟩ 1 =
      ⟨some false, [], 1, 1⟩ :=
  have h := module_walk_attach_detach_balanced
    ⟨true, some none, fun _ => none⟩ ⟨true, some none, fun _ => none⟩ 1
    false false (by decide) (by decide)
  ⟨h.2.2.1 rfl rfl, h.2.2.2 rfl rfl⟩

theorem walkLoop_chain {α : Type} (mem : LdrMem α) (extract : α → ModuleRecord)
    (sentinel : Nat) :
    ∀ (es : List α) (start fuel : Nat), LdrChain mem sentinel start es →
      es.length < fuel →
      walkLoop mem extract sentinel start fuel = some (es.map extract) := by
  intro es
  induction es with
  | nil =>
    intro start fuel hch hf
    cases hch
    cases fuel with
    | zero => exact absurd hf (by omega)
    | succ f => simp [walkLoop]
  | cons e es ih =>
    intro start fuel hch hf
    cases hch with
    | cons hne hmem hrest =>
      rename_i flink
      cases fuel with
      | zero => exact absurd hf (by omega)
      | succ f =>
        have hrec : walkLoop mem extract sentinel flink f = some (es.map extract) :=
          ih flink f hrest (by simpa using Nat.lt_of_succ_lt_succ hf)
        simp [walkLoop, if_neg hne, hmem, hrec]

/-- C8: for a well-formed circular load-order list, one walker call emits
exactly one record per entry, head-to-tail in load order, carrying each
entry's base address, entry point, short name and full path (widened for the
emulated 32-bit variant), and returns success with one attach/detach pair. -/
theorem module_walk_emits_all_records
    (p : X64ProcessEnv) (ldr : PEB_LDR_DATA) (es : List LDR_DATA_TABLE_ENTRY)
    (q : X86ProcessEnv) (ldr' : PEB_LDR_DATA) (es' : List LDR_DATA_TABLE_ENTRY32)
    (fuel : Nat)
    (hav : p.psGetProcessPebAvailable = true) (hpeb : p.peb = some (some ldr))
    (hch : LdrChain p.mem ldr.headAddr ldr.headFlink es)
    (hfuel : es.length < fuel)
    (hav' : q.psGetProcessWow64Available = true) (hpeb' : q.peb = some (some ldr'))
    (hch' : LdrChain q.mem ldr'.headAddr ldr'.headFlink es')
    (hfuel' : es'.length < fuel) :
    UserAccessPrintLoadedModulesX64 p fuel = ⟨some true, es.map record64, 1, 1⟩ ∧
    UserAccessPrintLoadedModulesX86 q fuel = ⟨some true, es'.map record32, 1, 1⟩ := by
  constructor
  · have hw := walkLoop_chain p.mem record64 ldr.headAddr es ldr.headFlink fuel
      hch hfuel
    simp [UserAccessPrintLoadedModulesX64, hav, hpeb, hw]
  · have hw := walkLoop_chain q.mem record32 ldr'.headAddr es' ldr'.headFlink fuel
      hch' hfuel'
    simp [UserAccessPrintLoadedModulesX86, hav', hpeb', hw]

/-- Witness for C8: a two-entry native list (nodes at addresses 1 and 2,
list head at address 0) and an empty emulated list. -/
theorem module_walk_emits_all_records_witness :
    UserAccessPrintLoadedModulesX64
        ⟨true, some (some ⟨0, 1⟩), fun a =>
          if a = 1 then some (2, ⟨0x1000, 0x1100, ['n', '1'], ['p', '1']⟩)
          else if a = 2 then some (0, ⟨0x2000, 0x2200, ['n', '2'], ['p', '2']⟩)
          else none⟩ 3 =
      ⟨some true,
       [⟨0x1000, 0x1100, ['n', '1'], ['p', '1']⟩,
        ⟨0x2000, 0x2200, ['n', '2'], ['p', '2']⟩], 1, 1⟩ ∧
    UserAccessPrintLoadedModulesX86 ⟨true, some (some ⟨0, 0⟩), fun _ => none⟩ 3 =
      ⟨some true, [], 1, 1⟩ :=
  module_walk_emits_all_records
    ⟨true, some (some ⟨0, 1⟩), fun a =>
      if a = 1 then some (2, ⟨0x1000, 0x1100, ['n', '1'], ['p', '1']⟩)
      else if a = 2 then some (0, ⟨0x2000, 0x2200, ['n', '2'], ['p', '2']⟩)
      else none⟩ ⟨0, 1⟩
    [⟨0x1000, 0x1100, ['n', '1'], ['p', '1']⟩,
     ⟨0x2000, 0x2200, ['n', '2'], ['p', '2']⟩]
    ⟨true, some (some ⟨0, 0⟩), fun _ => none⟩ ⟨0, 0⟩ [] 3
    rfl rfl
    (LdrChain.cons (by decide) rfl (LdrChain.cons (by decide) rfl LdrChain.nil))
    (by decide)
    rfl rfl LdrChain.nil (by decide)

theorem hexOrTick_not_marker {c : Char}
    (h : isHexDigitChar c = true ∨ c = backtickChar) :
    c ≠ 'x' ∧ c ≠ 'X' ∧ c ≠ '\\' := by
  rcases h with h | rfl
  · refine ⟨?_, ?_, ?_⟩ <;> rintro rfl <;> exact absurd h (by decide)
  · exact ⟨by decide, by decide, by decide⟩

theorem stripHexMarker_of_clean {s : Token}
    (hs : ∀ c ∈ s, isHexDigitChar c = true ∨ c = backtickChar) :
    stripHexMarker s = s := by
  cases s with
  | nil => rfl
  | cons c1 t =>
    cases t with
    | nil =>
      obtain ⟨h1, h2, -⟩ := hexOrTick_not_marker (hs c1 (by simp))
      simp [stripHexMarker, h1, h2]
    | cons c2 rest =>
      obtain ⟨hx1, hX1, hb1⟩ := hexOrTick_not_marker (hs c1 (by simp))
      obtain ⟨hx2, hX2, -⟩ := hexOrTick_not_marker (hs c2 (by simp))
      simp [stripHexMarker, hx1, hX1, hb1, hx2, hX2]

theorem stripHexMarker_append {p : Token} (hp : p ∈ hexMarkers) (s : Token) :
    stripHexMarker (p ++ s) = s := by
  simp only [hexMarkers, List.mem_cons, List.not_mem_nil, or_false] at hp
  rcases hp with rfl | rfl | rfl | rfl | rfl | rfl <;>
    cases s <;> simp [stripHexMarker]

theorem removeBackticks_all_hex {s : Token}
    (hs : ∀ c ∈ s, isHexDigitChar c = true ∨ c = backtickChar) :
    ∀ c ∈ removeBackticks s, isHexDigitChar c = true := by
  intro c hc
  rw [removeBackticks, List.mem_filter] at hc
  obtain ⟨hmem, hne⟩ := hc
  rcases hs c hmem with h | h
  · exact h
  · exact absurd h (by simpa using hne)

theorem removeBackticks_of_no_ticks {s : Token}
    (h : ∀ c ∈ s, isHexDigitChar c = true) : removeBackticks s = s := by
  rw [removeBackticks, List.filter_eq_self]
  intro c hc
  have hh := h c hc
  simp only [ne_eq, decide_eq_true_eq]
  intro hcb
  subst hcb
  exact absurd hh (by decide)

/-- C9: a token decorated with any of the six hex markers `0x`, `0X`, `\x`,
`\X`, `x`, `X`, or containing backtick separators, parses — as an address
token, as a value token after the `e.cpp` stripping, and under the 32-bit
variant — to the same numeric result as the bare token with those
decorations removed. -/
theorem hex_decoration_parse_invariance (p s : Token) (hp : p ∈ hexMarkers)
    (hs : ∀ c ∈ s, isHexDigitChar c = true ∨ c = backtickChar) :
    ConvertStringToUInt64 (p ++ s) = ConvertStringToUInt64 (removeBackticks s) ∧
    ConvertStringToUInt64 s = ConvertStringToUInt64 (removeBackticks s) ∧
    ConvertStringToUInt32 (p ++ s) = ConvertStringToUInt32 (removeBackticks s) ∧
    ConvertStringToUInt32 s = ConvertStringToUInt32 (removeBackticks s) ∧
    ConvertStringToUInt64 (removeBackticks (stripHexMarker (p ++ s))) =
      ConvertStringToUInt64 (removeBackticks s) := by
  have hstrip_ps : stripHexMarker (p ++ s) = s := stripHexMarker_append hp s
  have hclean : ∀ c ∈ removeBackticks s, isHexDigitChar c = true :=
    removeBackticks_all_hex hs
  have hstrip_rb : stripHexMarker (removeBackticks s) = removeBackticks s :=
    stripHexMarker_of_clean (fun c hc => Or.inl (hclean c hc))
  have hrb_rb : removeBackticks (removeBackticks s) = removeBackticks s :=
    removeBackticks_of_no_ticks hclean
  have hstrip_s : stripHexMarker s = s := stripHexMarker_of_clean hs
  refine ⟨?_, ?_, ?_, ?_, ?_⟩
  · unfold ConvertStringToUInt64
    rw [hstrip_ps, hstrip_rb, hrb_rb]
  · unfold ConvertStringToUInt64
    rw [hstrip_s, hstrip_rb, hrb_rb]
  · unfold ConvertStringToUInt32
    rw [hstrip_ps, hstrip_rb, hrb_rb]
  · unfold ConvertStringToUInt32
    rw [hstrip_s, hstrip_rb, hrb_rb]
  · unfold ConvertStringToUInt64
    rw [hstrip_ps, hstrip_rb, hrb_rb]

/-- Witness for C9 at the decorated token `0x9`90`. -/
theorem hex_decoration_parse_invariance_witness :
    ConvertStringToUInt64 (['0', 'x'] ++ ['9', backtickChar, '0']) =
      ConvertStringToUInt64 (removeBackticks ['9', backtickChar, '0']) :=
  (hex_decoration_parse_invariance ['0', 'x'] ['9', backtickChar, '0']
    (by decide) (by decide)).1

end HyperDbg
